import Mathlib

/-!
Shallow embedding of the biscuit8 CHIP-8 emulator core
(`src/instruction.rs`, `src/keys.rs`, `src/screen.rs`, `src/chip8.rs`).

Modelling conventions:
* Rust machine integers (`u8`, `u16`, `usize`) are `Nat`, with `% 2^w`
  written explicitly wherever the source wraps (`wrapping_add`,
  `overflowing_add`, `<<` on `u8`, ...).
* Operations that can hit a Rust panic (out-of-bounds slice indexing,
  `Vec::pop` on an empty stack via `.expect`, debug-build arithmetic
  overflow) return `Option`/a dedicated `crash` constructor; `none`/
  `crash` marks the panic.
* The 60 Hz wall-clock check in `Chip8::decrement_timers`
  (`Instant::elapsed`) is abstracted into a boolean `tick` parameter:
  `tick = true` means at least 1/60 s elapsed since the last decrement.
* Fixed-size arrays (`[u8; 4096]`, `[u8; 16]`, `[bool; 2048]`) are
  total functions from `Nat`; every index the source performs is guarded
  exactly where the source's bounds allow a panic.
-/

namespace Biscuit8

/-! ## Instruction (`src/instruction.rs`) -/

/-- `Instruction { raw: u16 }`. -/
structure Instruction where
  raw : Nat
  deriving DecidableEq, Repr

namespace Instruction

/-- `Instruction::new(raw)`. -/
def new (raw : Nat) : Instruction := ⟨raw % 65536⟩

/-- `Instruction::nibbles`: the four 4-bit nibbles, high to low. -/
def nibbles (i : Instruction) : Nat × Nat × Nat × Nat :=
  ((i.raw &&& 0xF000) >>> 12,
   (i.raw &&& 0x0F00) >>> 8,
   (i.raw &&& 0x00F0) >>> 4,
   i.raw &&& 0x000F)

/-- `Instruction::x`: the second nibble (a register selector). -/
def xReg (i : Instruction) : Nat := (i.raw &&& 0x0F00) >>> 8

/-- `Instruction::y`: the third nibble (a register selector). -/
def yReg (i : Instruction) : Nat := (i.raw &&& 0x00F0) >>> 4

/-- `Instruction::n`: the last nibble (a size). -/
def nVal (i : Instruction) : Nat := i.raw &&& 0x000F

/-- `Instruction::nn`: the last byte (a constant). -/
def nn (i : Instruction) : Nat := i.raw &&& 0x00FF

/-- `Instruction::nnn`: the last 12 bits (an address). -/
def nnn (i : Instruction) : Nat := i.raw &&& 0x0FFF

end Instruction

/-! ## Keys (`src/keys.rs`) -/

/-- `Keys { raw: u16, last_pressed: Option<u8> }`. -/
structure Keys where
  raw : Nat
  last_pressed : Option Nat
  deriving DecidableEq, Repr

namespace Keys

/-- `Keys::new()`. -/
def new : Keys := ⟨0, none⟩

/-- `Keys::press_key(key)`: `raw |= 1 << key; last_pressed = Some(key)`.
`none` models the debug-build overflow panic of `1u16 << key` for
`key >= 16`. -/
def press_key (k : Keys) (key : Nat) : Option Keys :=
  if key < 16 then some ⟨k.raw ||| (1 <<< key), some key⟩ else none

/-- `Keys::key_pressed(key)`: `(raw & (1 << key)) != 0`. `none` models
the debug-build overflow panic of `1u16 << key` for `key >= 16`. -/
def key_pressed (k : Keys) (key : Nat) : Option Bool :=
  if key < 16 then some ((k.raw &&& (1 <<< key)) != 0) else none

/-- `Keys::last_pressed()`. -/
def lastPressed (k : Keys) : Option Nat := k.last_pressed

end Keys

/-! ## Screen (`src/screen.rs`) -/

/-- `screen::WIDTH`. -/
def WIDTH : Nat := 64

/-- `screen::HEIGHT`. -/
def HEIGHT : Nat := 32

/-- `Screen { raw: [bool; WIDTH * HEIGHT] }`, row-major. -/
structure Screen where
  raw : Nat → Bool

namespace Screen

/-- `Screen::new()`: all pixels unset. -/
def new : Screen := ⟨fun _ => false⟩

/-- Inner loop of `Screen::draw_sprite`: `for j in 0..8`, breaking when
`x + j >= WIDTH`; `row` is the current sprite byte, `yRow` the current
absolute row `y + i`. `fuel` counts the iterations left (starts at 8),
`j` is the loop counter. -/
def drawCols (row x yRow : Nat) :
    Nat → Nat → (Nat → Bool) → Bool → (Nat → Bool) × Bool
  | 0, _, raw, erased => (raw, erased)
  | fuel + 1, j, raw, erased =>
    if x + j ≥ WIDTH then (raw, erased)
    else
      -- `let bit = (row & 0b10000000 >> j) << j;` (Rust precedence:
      -- shifts bind tighter than `&`)
      let bit := (row &&& (0b10000000 >>> j)) <<< j
      let pos := yRow * WIDTH + x + j
      let pixel := raw pos
      let raw' := fun p => if p = pos then xor (raw p) (bit != 0) else raw p
      let erased' := if pixel && !(raw' pos) then true else erased
      drawCols row x yRow fuel (j + 1) raw' erased'

/-- Outer loop of `Screen::draw_sprite`: `for (i, row) in
sprite.iter().enumerate()`, breaking when `y + i >= HEIGHT`. -/
def drawRows (x y : Nat) :
    List Nat → Nat → (Nat → Bool) → Bool → (Nat → Bool) × Bool
  | [], _, raw, erased => (raw, erased)
  | row :: rest, i, raw, erased =>
    if y + i ≥ HEIGHT then (raw, erased)
    else
      let r := drawCols row x (y + i) 8 0 raw erased
      drawRows x y rest (i + 1) r.1 r.2

/-- `Screen::draw_sprite(sprite, x, y)`: reduce the start coordinates
modulo the screen size, then draw with clipping; returns the updated
screen and whether a set pixel was erased. -/
def draw_sprite (s : Screen) (sprite : List Nat) (x y : Nat) :
    Screen × Bool :=
  let r := drawRows (x % WIDTH) (y % HEIGHT) sprite 0 s.raw false
  (⟨r.1⟩, r.2)

/-- `Screen::clear()`. -/
def clear (_ : Screen) : Screen := ⟨fun _ => false⟩

/-- `Screen::pixel(x, y)`. -/
def pixel (s : Screen) (x y : Nat) : Bool := s.raw (y * WIDTH + x)

end Screen

end Biscuit8

namespace Biscuit8

/-! ## Chip8 engine (`src/chip8.rs`) -/

/-- `RAM_SIZE`: bytes of emulator RAM. -/
def RAM_SIZE : Nat := 0x1000

/-- `ROM_LOC`: where the ROM is placed in RAM. -/
def ROM_LOC : Nat := 0x200

/-- `FONT_SPRITES`: the 80-byte hexadecimal-digit font. -/
def FONT_SPRITES : List Nat :=
  [0xF0, 0x90, 0x90, 0x90, 0xF0,
   0x20, 0x60, 0x20, 0x20, 0x70,
   0xF0, 0x10, 0xF0, 0x80, 0xF0,
   0xF0, 0x10, 0xF0, 0x10, 0xF0,
   0x90, 0x90, 0xF0, 0x10, 0x10,
   0xF0, 0x80, 0xF0, 0x10, 0xF0,
   0xF0, 0x80, 0xF0, 0x90, 0xF0,
   0xF0, 0x10, 0x20, 0x40, 0x40,
   0xF0, 0x90, 0xF0, 0x90, 0xF0,
   0xF0, 0x90, 0xF0, 0x10, 0xF0,
   0xF0, 0x90, 0xF0, 0x90, 0x90,
   0xE0, 0x90, 0xE0, 0x90, 0xE0,
   0xF0, 0x80, 0x80, 0x80, 0xF0,
   0xE0, 0x90, 0x90, 0x90, 0xE0,
   0xF0, 0x80, 0xF0, 0x80, 0xF0,
   0xF0, 0x80, 0xF0, 0x80, 0x80]

/-- Pointwise update of a `Nat`-indexed map (a slice/array write). -/
def upd {α : Type} (f : Nat → α) (idx : Nat) (a : α) : Nat → α :=
  fun j => if j = idx then a else f j

/-- The `Chip8` struct. `ram` and `v` are the fixed arrays as total
maps; `rand` is the oracle for the next `rng.u8(0..255)` draw; the
`last_decrement: Instant` field is abstracted away (see `tick`). -/
structure Chip8 where
  ram : Nat → Nat
  v : Nat → Nat
  i : Nat
  pc : Nat
  dt : Nat
  st : Nat
  stack : List Nat
  instruction : Instruction
  keys : Keys
  screen : Screen
  rand : Nat

/-- `Chip8Error`. -/
inductive Chip8Error where
  | RomTooBig : Nat → Chip8Error
  | NoMoreInstructions : Chip8Error
  | UnknownInstruction : Instruction → Nat → Chip8Error
  deriving DecidableEq, Repr

/-- Result of `Chip8::decode_execute`: `ok state redraw`, a returned
`Chip8Error`, or a Rust panic (`crash`). -/
inductive DEOut where
  | ok : Chip8 → Bool → DEOut
  | err : Chip8Error → DEOut
  | crash : DEOut

/-- Result of `Chip8::instruction_cycle`. On `Err` the mutated `self`
is still observable, so `err` carries the post-state. -/
inductive CycleOut where
  | ok : Chip8 → Option Screen → Bool → CycleOut
  | err : Chip8 → Chip8Error → CycleOut
  | crash : CycleOut

/-- Lift a possibly-panicking operation into `DEOut`. -/
def DEOut.ofOp (o : Option Chip8) (redraw : Bool) : DEOut :=
  match o with
  | none => .crash
  | some s => .ok s redraw

namespace Chip8

/-- `Chip8::new(rom)`. `none` models the debug-build underflow panic of
`rom.len() - RAM_SIZE - ROM_LOC` (evaluated left-to-right on `usize`)
when `3584 < rom.len() < 4608`; with overflow checks off the same
expression wraps instead, into a meaningless byte count. -/
def new (rom : List Nat) : Option (Except Chip8Error Chip8) :=
  if rom.length > RAM_SIZE - ROM_LOC then
    if rom.length < RAM_SIZE + ROM_LOC then none
    else some (.error (.RomTooBig (rom.length - RAM_SIZE - ROM_LOC)))
  else
    some (.ok
      { ram := fun a =>
          if a < FONT_SPRITES.length then FONT_SPRITES.getD a 0
          else if ROM_LOC ≤ a ∧ a < rom.length + ROM_LOC then
            rom.getD (a - ROM_LOC) 0
          else 0
        v := fun _ => 0
        i := 0
        pc := ROM_LOC
        dt := 0
        st := 0
        stack := []
        instruction := Instruction.new 0
        keys := Keys.new
        screen := Screen.new
        rand := 0 })

/-- `Chip8::decrement_timers`, with the 1/60 s wall-clock test
abstracted into `tick`. -/
def decrement_timers (s : Chip8) (tick : Bool) : Chip8 :=
  if tick then
    { s with dt := if s.dt ≠ 0 then s.dt - 1 else s.dt,
             st := if s.st ≠ 0 then s.st - 1 else s.st }
  else s

/-- `Chip8::fetch_instruction`: the two `ram.get` lookups at
`pc` and `pc + 1`, big-endian. -/
def fetch_instruction (s : Chip8) : Option Instruction :=
  if s.pc < RAM_SIZE then
    if s.pc + 1 < RAM_SIZE then
      some (Instruction.new (s.ram s.pc * 256 + s.ram (s.pc + 1)))
    else none
  else none

/-- `00E0`: `Chip8::clear_screen`. -/
def clear_screen (s : Chip8) : Chip8 :=
  { s with screen := s.screen.clear }

/-- `00EE`: `Chip8::subroutine_return`; `Vec::pop().expect(..)` panics
(`none`) on an empty stack. The list head is the vector's top. -/
def subroutine_return (s : Chip8) : Option Chip8 :=
  match s.stack with
  | [] => none
  | a :: rest => some { s with pc := a, stack := rest }

/-- `1nnn`: `Chip8::jump_addr`. -/
def jump_addr (s : Chip8) : Chip8 :=
  { s with pc := s.instruction.nnn }

/-- `2nnn`: `Chip8::call_subroutine`. -/
def call_subroutine (s : Chip8) : Chip8 :=
  { s with stack := s.pc :: s.stack, pc := s.instruction.nnn }

/-- `3xnn`: `Chip8::skip_eq_byte`. -/
def skip_eq_byte (s : Chip8) : Chip8 :=
  if s.v s.instruction.xReg = s.instruction.nn then
    { s with pc := s.pc + 2 }
  else s

/-- `4xnn`: `Chip8::skip_not_byte`. -/
def skip_not_byte (s : Chip8) : Chip8 :=
  if s.v s.instruction.xReg ≠ s.instruction.nn then
    { s with pc := s.pc + 2 }
  else s

/-- `5xy0`: `Chip8::skip_eq_reg`. -/
def skip_eq_reg (s : Chip8) : Chip8 :=
  if s.v s.instruction.xReg = s.v s.instruction.yReg then
    { s with pc := s.pc + 2 }
  else s

/-- `6xnn`: `Chip8::set_reg_byte`. -/
def set_reg_byte (s : Chip8) : Chip8 :=
  { s with v := upd s.v s.instruction.xReg s.instruction.nn }

/-- `7xnn`: `Chip8::add_byte` (`wrapping_add` on `u8`). -/
def add_byte (s : Chip8) : Chip8 :=
  let x := s.instruction.xReg
  { s with v := upd s.v x ((s.v x + s.instruction.nn) % 256) }

/-- `8xy0`: `Chip8::set_reg_reg`. -/
def set_reg_reg (s : Chip8) : Chip8 :=
  { s with v := upd s.v s.instruction.xReg (s.v s.instruction.yReg) }

/-- `8xy1`: `Chip8::or_reg` (`v[x] |= v[y]; v[0xF] = 0`). -/
def or_reg (s : Chip8) : Chip8 :=
  let x := s.instruction.xReg
  { s with v := upd (upd s.v x (s.v x ||| s.v s.instruction.yReg)) 0xF 0 }

/-- `8xy2`: `Chip8::and_reg` (`v[x] &= v[y]; v[0xF] = 0`). -/
def and_reg (s : Chip8) : Chip8 :=
  let x := s.instruction.xReg
  { s with v := upd (upd s.v x (s.v x &&& s.v s.instruction.yReg)) 0xF 0 }

/-- `8xy3`: `Chip8::xor_reg` (`v[x] ^= v[y]; v[0xF] = 0`). -/
def xor_reg (s : Chip8) : Chip8 :=
  let x := s.instruction.xReg
  { s with v := upd (upd s.v x (s.v x ^^^ s.v s.instruction.yReg)) 0xF 0 }

/-- `8xy4`: `Chip8::add_reg` (`overflowing_add`; `v[x]` written first,
then the carry into `v[0xF]`). -/
def add_reg (s : Chip8) : Chip8 :=
  let x := s.instruction.xReg
  let sum := s.v x + s.v s.instruction.yReg
  { s with v := upd (upd s.v x (sum % 256)) 0xF (if 256 ≤ sum then 1 else 0) }

/-- `8xy5`: `Chip8::sub_reg` (`overflowing_sub`; flag is NOT borrow). -/
def sub_reg (s : Chip8) : Chip8 :=
  let x := s.instruction.xReg
  let y := s.instruction.yReg
  let diff := (s.v x + 256 - s.v y % 256) % 256
  { s with v := upd (upd s.v x diff) 0xF (if s.v x < s.v y then 0 else 1) }

/-- `8xy6`: `Chip8::shr_reg` (`lsb = v[x] & 1; v[x] = v[y] >> 1;
v[0xF] = lsb` — the flag write comes second). -/
def shr_reg (s : Chip8) : Chip8 :=
  let x := s.instruction.xReg
  let lsb := s.v x &&& 1
  { s with v := upd (upd s.v x (s.v s.instruction.yReg >>> 1)) 0xF lsb }

/-- `8xy7`: `Chip8::rev_sub_reg`. -/
def rev_sub_reg (s : Chip8) : Chip8 :=
  let x := s.instruction.xReg
  let y := s.instruction.yReg
  let diff := (s.v y + 256 - s.v x % 256) % 256
  { s with v := upd (upd s.v x diff) 0xF (if s.v y < s.v x then 0 else 1) }

/-- `8xyE`: `Chip8::shl_reg` (`msb = (v[x] >> 7) & 1; v[x] = v[y] << 1;
v[0xF] = msb` — the flag write comes second; `<<` wraps in 8 bits). -/
def shl_reg (s : Chip8) : Chip8 :=
  let x := s.instruction.xReg
  let msb := (s.v x >>> 7) &&& 1
  { s with v := upd (upd s.v x ((s.v s.instruction.yReg <<< 1) % 256)) 0xF msb }

/-- `9xy0`: `Chip8::skip_not_reg`. -/
def skip_not_reg (s : Chip8) : Chip8 :=
  if s.v s.instruction.xReg ≠ s.v s.instruction.yReg then
    { s with pc := s.pc + 2 }
  else s

/-- `Annn`: `Chip8::set_index_addr`. -/
def set_index_addr (s : Chip8) : Chip8 :=
  { s with i := s.instruction.nnn }

/-- `Bnnn`: `Chip8::jump_add_addr`. -/
def jump_add_addr (s : Chip8) : Chip8 :=
  { s with pc := s.instruction.nnn + s.v 0 }

/-- `Cxnn`: `Chip8::rand_and_byte`; `rng.u8(0..255)` is the state's
`rand` oracle reduced into `0..255`. -/
def rand_and_byte (s : Chip8) : Chip8 :=
  { s with v := upd s.v s.instruction.xReg ((s.rand % 255) &&& s.instruction.nn) }

/-- `Dxyn`: `Chip8::draw_sprite`; the slice `ram[i..i + n]` panics
(`none`) when `i + n > RAM_SIZE`. -/
def draw_sprite (s : Chip8) : Option Chip8 :=
  let n := s.instruction.nVal
  if s.i + n ≤ RAM_SIZE then
    let sprite := (List.range n).map fun k => s.ram (s.i + k)
    let r := s.screen.draw_sprite sprite
      (s.v s.instruction.xReg) (s.v s.instruction.yReg)
    some { s with screen := r.1, v := upd s.v 0xF (if r.2 then 1 else 0) }
  else none

/-- `Ex9E`: `Chip8::skip_eq_key`; propagates the `key_pressed`
shift-overflow panic. -/
def skip_eq_key (s : Chip8) : Option Chip8 :=
  match s.keys.key_pressed (s.v s.instruction.xReg) with
  | none => none
  | some b => some (if b then { s with pc := s.pc + 2 } else s)

/-- `ExA1`: `Chip8::skip_not_key`. -/
def skip_not_key (s : Chip8) : Option Chip8 :=
  match s.keys.key_pressed (s.v s.instruction.xReg) with
  | none => none
  | some b => some (if !b then { s with pc := s.pc + 2 } else s)

/-- `Fx07`: `Chip8::set_reg_delay`. -/
def set_reg_delay (s : Chip8) : Chip8 :=
  { s with v := upd s.v s.instruction.xReg s.dt }

/-- `Fx0A`: `Chip8::set_reg_key`; `self.pc -= 2` would underflow-panic
for `pc < 2` (unreachable from `instruction_cycle`, which has just
added 2). -/
def set_reg_key (s : Chip8) : Option Chip8 :=
  match s.keys.last_pressed with
  | some key => some { s with v := upd s.v s.instruction.xReg key }
  | none => if s.pc < 2 then none else some { s with pc := s.pc - 2 }

/-- `Fx15`: `Chip8::set_delay_reg`. -/
def set_delay_reg (s : Chip8) : Chip8 :=
  { s with dt := s.v s.instruction.xReg }

/-- `Fx18`: `Chip8::set_sound_reg`. -/
def set_sound_reg (s : Chip8) : Chip8 :=
  { s with st := s.v s.instruction.xReg }

/-- `Fx1E`: `Chip8::add_index_reg` (`usize::wrapping_add`). -/
def add_index_reg (s : Chip8) : Chip8 :=
  { s with i := (s.i + s.v s.instruction.xReg) % 2 ^ 64 }

/-- `Fx29`: `Chip8::set_index_char`. -/
def set_index_char (s : Chip8) : Chip8 :=
  { s with i := 5 * s.v s.instruction.xReg }

/-- `Fx33`: `Chip8::set_index_bcd`; `ram[i]`, `ram[i + 1]`,
`ram[i + 2]` panic (`none`) unless `i + 2 < RAM_SIZE`. -/
def set_index_bcd (s : Chip8) : Option Chip8 :=
  if s.i + 2 < RAM_SIZE then
    let vx := s.v s.instruction.xReg
    let ram1 := upd s.ram s.i (vx / 100 % 10)
    let ram2 := upd ram1 (s.i + 1) (vx / 10 % 10)
    some { s with ram := upd ram2 (s.i + 2) (vx % 10) }
  else none

/-- `Fx55`: `Chip8::set_index_reg`
(`ram[i..=i+x].copy_from_slice(&v[0..=x]); i += x + 1`); the slice
panics (`none`) unless `i + x < RAM_SIZE`. -/
def set_index_reg (s : Chip8) : Option Chip8 :=
  let x := s.instruction.xReg
  if s.i + x < RAM_SIZE then
    some { s with
      ram := fun a => if s.i ≤ a ∧ a ≤ s.i + x then s.v (a - s.i) else s.ram a,
      i := s.i + x + 1 }
  else none

/-- `Fx65`: `Chip8::set_reg_index`
(`v[0..=x].copy_from_slice(&ram[i..=i+x]); i += x + 1`); the RAM slice
panics (`none`) unless `i + x < RAM_SIZE`. -/
def set_reg_index (s : Chip8) : Option Chip8 :=
  let x := s.instruction.xReg
  if s.i + x < RAM_SIZE then
    some { s with
      v := fun r => if r ≤ x then s.ram (s.i + r) else s.v r,
      i := s.i + x + 1 }
  else none

end Chip8

/-- The operation selected by an arm of the `Chip8::decode_execute`
match, named after the `Chip8` method the arm calls (`unknown` is the
catch-all `_` arm). -/
inductive Op where
  | nop
  | clear_screen
  | subroutine_return
  | jump_addr
  | call_subroutine
  | skip_eq_byte
  | skip_not_byte
  | skip_eq_reg
  | set_reg_byte
  | add_byte
  | set_reg_reg
  | or_reg
  | and_reg
  | xor_reg
  | add_reg
  | sub_reg
  | shr_reg
  | rev_sub_reg
  | shl_reg
  | skip_not_reg
  | set_index_addr
  | jump_add_addr
  | rand_and_byte
  | draw_sprite
  | skip_eq_key
  | skip_not_key
  | set_reg_delay
  | set_reg_key
  | set_delay_reg
  | set_sound_reg
  | add_index_reg
  | set_index_char
  | set_index_bcd
  | set_index_reg
  | set_reg_index
  | unknown
  deriving DecidableEq, Repr

/-- The pattern dispatch of `Chip8::decode_execute`: the Rust `match`
over `(u8, u8, u8, u8)` literal patterns, rendered as the equivalent
sequential comparison chain, one condition per arm, in source order.
`nb.1`/`nb.2.1`/`nb.2.2.1`/`nb.2.2.2` are the four nibbles, high to
low; a wildcard `_` in a pattern imposes no condition. -/
def decodeOp (nb : Nat × Nat × Nat × Nat) : Op :=
  if nb = (0x0, 0x0, 0x0, 0x0) then .nop
  else if nb = (0x0, 0x0, 0xE, 0x0) then .clear_screen
  else if nb = (0x0, 0x0, 0xE, 0xE) then .subroutine_return
  else if nb.1 = 0x1 then .jump_addr
  else if nb.1 = 0x2 then .call_subroutine
  else if nb.1 = 0x3 then .skip_eq_byte
  else if nb.1 = 0x4 then .skip_not_byte
  else if nb.1 = 0x5 ∧ nb.2.2.2 = 0x0 then .skip_eq_reg
  else if nb.1 = 0x6 then .set_reg_byte
  else if nb.1 = 0x7 then .add_byte
  else if nb.1 = 0x8 ∧ nb.2.2.2 = 0x0 then .set_reg_reg
  else if nb.1 = 0x8 ∧ nb.2.2.2 = 0x1 then .or_reg
  else if nb.1 = 0x8 ∧ nb.2.2.2 = 0x2 then .and_reg
  else if nb.1 = 0x8 ∧ nb.2.2.2 = 0x3 then .xor_reg
  else if nb.1 = 0x8 ∧ nb.2.2.2 = 0x4 then .add_reg
  else if nb.1 = 0x8 ∧ nb.2.2.2 = 0x5 then .sub_reg
  else if nb.1 = 0x8 ∧ nb.2.2.2 = 0x6 then .shr_reg
  else if nb.1 = 0x8 ∧ nb.2.2.2 = 0x7 then .rev_sub_reg
  else if nb.1 = 0x8 ∧ nb.2.2.2 = 0xE then .shl_reg
  else if nb.1 = 0x9 ∧ nb.2.2.2 = 0x0 then .skip_not_reg
  else if nb.1 = 0xA then .set_index_addr
  else if nb.1 = 0xB then .jump_add_addr
  else if nb.1 = 0xC then .rand_and_byte
  else if nb.1 = 0xD then .draw_sprite
  else if nb.1 = 0xE ∧ nb.2.2.1 = 0x9 ∧ nb.2.2.2 = 0xE then .skip_eq_key
  else if nb.1 = 0xE ∧ nb.2.2.1 = 0xA ∧ nb.2.2.2 = 0x1 then .skip_not_key
  else if nb.1 = 0xF ∧ nb.2.2.1 = 0x0 ∧ nb.2.2.2 = 0x7 then .set_reg_delay
  else if nb.1 = 0xF ∧ nb.2.2.1 = 0x0 ∧ nb.2.2.2 = 0xA then .set_reg_key
  else if nb.1 = 0xF ∧ nb.2.2.1 = 0x1 ∧ nb.2.2.2 = 0x5 then .set_delay_reg
  else if nb.1 = 0xF ∧ nb.2.2.1 = 0x1 ∧ nb.2.2.2 = 0x8 then .set_sound_reg
  else if nb.1 = 0xF ∧ nb.2.2.1 = 0x1 ∧ nb.2.2.2 = 0xE then .add_index_reg
  else if nb.1 = 0xF ∧ nb.2.2.1 = 0x2 ∧ nb.2.2.2 = 0x9 then .set_index_char
  else if nb.1 = 0xF ∧ nb.2.2.1 = 0x3 ∧ nb.2.2.2 = 0x3 then .set_index_bcd
  else if nb.1 = 0xF ∧ nb.2.2.1 = 0x5 ∧ nb.2.2.2 = 0x5 then .set_index_reg
  else if nb.1 = 0xF ∧ nb.2.2.1 = 0x6 ∧ nb.2.2.2 = 0x5 then .set_reg_index
  else .unknown

namespace Chip8

/-- `Chip8::decode_execute`: dispatch on the nibble pattern
(`decodeOp`) and run the selected arm's body. -/
def decode_execute (s : Chip8) : DEOut :=
  match decodeOp s.instruction.nibbles with
  | .nop => .ok s false
  | .clear_screen => .ok (clear_screen s) true
  | .subroutine_return => DEOut.ofOp (subroutine_return s) false
  | .jump_addr => .ok (jump_addr s) false
  | .call_subroutine => .ok (call_subroutine s) false
  | .skip_eq_byte => .ok (skip_eq_byte s) false
  | .skip_not_byte => .ok (skip_not_byte s) false
  | .skip_eq_reg => .ok (skip_eq_reg s) false
  | .set_reg_byte => .ok (set_reg_byte s) false
  | .add_byte => .ok (add_byte s) false
  | .set_reg_reg => .ok (set_reg_reg s) false
  | .or_reg => .ok (or_reg s) false
  | .and_reg => .ok (and_reg s) false
  | .xor_reg => .ok (xor_reg s) false
  | .add_reg => .ok (add_reg s) false
  | .sub_reg => .ok (sub_reg s) false
  | .shr_reg => .ok (shr_reg s) false
  | .rev_sub_reg => .ok (rev_sub_reg s) false
  | .shl_reg => .ok (shl_reg s) false
  | .skip_not_reg => .ok (skip_not_reg s) false
  | .set_index_addr => .ok (set_index_addr s) false
  | .jump_add_addr => .ok (jump_add_addr s) false
  | .rand_and_byte => .ok (rand_and_byte s) false
  | .draw_sprite => DEOut.ofOp (draw_sprite s) true
  | .skip_eq_key => DEOut.ofOp (skip_eq_key s) false
  | .skip_not_key => DEOut.ofOp (skip_not_key s) false
  | .set_reg_delay => .ok (set_reg_delay s) false
  | .set_reg_key => DEOut.ofOp (set_reg_key s) false
  | .set_delay_reg => .ok (set_delay_reg s) false
  | .set_sound_reg => .ok (set_sound_reg s) false
  | .add_index_reg => .ok (add_index_reg s) false
  | .set_index_char => .ok (set_index_char s) false
  | .set_index_bcd => DEOut.ofOp (set_index_bcd s) false
  | .set_index_reg => DEOut.ofOp (set_index_reg s) false
  | .set_reg_index => DEOut.ofOp (set_reg_index s) false
  | .unknown => .err (.UnknownInstruction s.instruction s.pc)

/-- The tail of `Chip8::instruction_cycle` after a successful fetch:
`self.decode_execute()?` and the two `Ok` returns, on the state with
`keys`/`instruction` stored and `pc` pre-incremented. -/
def run_decoded (s2 : Chip8) : CycleOut :=
  match decode_execute s2 with
  | .crash => .crash
  | .err e => .err s2 e
  | .ok s3 redraw =>
    if redraw then .ok s3 (some s3.screen) (decide (0 < s3.st))
    else .ok s3 none (decide (0 < s3.st))

/-- `Chip8::instruction_cycle(keys)`. -/
def instruction_cycle (s0 : Chip8) (keys : Keys) (tick : Bool) : CycleOut :=
  let s1 := decrement_timers s0 tick
  match fetch_instruction s1 with
  | none => .err s1 .NoMoreInstructions
  | some ins =>
    run_decoded { s1 with keys := keys, instruction := ins, pc := s1.pc + 2 }

end Chip8

end Biscuit8

namespace Biscuit8

/-! ## Helper lemmas -/

/-- Reading an `upd`-written map at the written index. -/
lemma upd_same {α : Type} (f : Nat → α) (idx : Nat) (a : α) :
    upd f idx a idx = a := by
  simp [upd]

/-- Reading an `upd`-written map elsewhere. -/
lemma upd_other {α : Type} (f : Nat → α) (idx j : Nat) (a : α)
    (h : j ≠ idx) : upd f idx a j = f j := by
  simp [upd, h]

/-- A lifted operation never yields a returned error. -/
lemma DEOut.ofOp_ne_err (o : Option Chip8) (b : Bool) (e : Chip8Error) :
    DEOut.ofOp o b ≠ .err e := by
  cases o <;> simp [DEOut.ofOp]

/-- A lifted operation yields `ok` exactly from `some`, keeping the
redraw flag. -/
lemma DEOut.ofOp_ok {o : Option Chip8} {b : Bool} {s' : Chip8} {r : Bool}
    (h : DEOut.ofOp o b = .ok s' r) : o = some s' ∧ r = b := by
  cases o <;> simp_all [DEOut.ofOp]

/-- A lifted operation crashes exactly when the operation panicked. -/
lemma DEOut.ofOp_crash (o : Option Chip8) (b : Bool) :
    DEOut.ofOp o b = .crash ↔ o = none := by
  cases o <;> simp [DEOut.ofOp]

/-- `decrement_timers` leaves the program counter alone. -/
lemma Chip8.decrement_timers_pc (s : Chip8) (t : Bool) :
    (Chip8.decrement_timers s t).pc = s.pc := by
  unfold Chip8.decrement_timers; split <;> rfl

/-- `decrement_timers` leaves the registers alone. -/
lemma Chip8.decrement_timers_v (s : Chip8) (t : Bool) :
    (Chip8.decrement_timers s t).v = s.v := by
  unfold Chip8.decrement_timers; split <;> rfl

/-- `decode_execute` only ever returns the unknown-instruction error. -/
lemma Chip8.decode_execute_err {s : Chip8} {e : Chip8Error}
    (h : Chip8.decode_execute s = .err e) :
    e = .UnknownInstruction s.instruction s.pc := by
  unfold Chip8.decode_execute at h
  split at h <;>
    first
      | exact absurd h (DEOut.ofOp_ne_err _ _ _)
      | simp_all

/-- `run_decoded` never reports the end-of-ROM error. -/
lemma Chip8.run_decoded_ne_nmi (s2 s' : Chip8) :
    Chip8.run_decoded s2 ≠ .err s' .NoMoreInstructions := by
  unfold Chip8.run_decoded
  cases hde : Chip8.decode_execute s2 with
  | ok s3 r => by_cases hr : r = true <;> simp [hr]
  | err e =>
    have := Chip8.decode_execute_err hde
    subst this
    simp
  | crash => simp

/-! ## C1 -/

/-- C1: every ROM of at most `4096 - 0x200 = 3584` bytes is accepted by
`Chip8::new`, but a 3585-byte ROM does NOT produce `Err(RomTooBig)`:
the byte-count expression `rom.len() - RAM_SIZE - ROM_LOC` underflows
(`3585 - 4096` on `usize`), a panic under overflow checks and a
meaningless wrapped count without them, contradicting the error's own
"exceeds ... by {0} bytes" message. -/
theorem c1_rom_size_check :
    (∀ rom : List Nat, rom.length ≤ RAM_SIZE - ROM_LOC →
      ∃ c, Chip8.new rom = some (.ok c)) ∧
    Chip8.new (List.replicate 3585 0) = none := by
  constructor
  · intro rom h
    unfold Chip8.new
    rw [if_neg (by omega)]
    exact ⟨_, rfl⟩
  · unfold Chip8.new
    have h1 : (List.replicate 3585 (0 : Nat)).length > RAM_SIZE - ROM_LOC := by
      rw [List.length_replicate]; norm_num [RAM_SIZE, ROM_LOC]
    have h2 : (List.replicate 3585 (0 : Nat)).length < RAM_SIZE + ROM_LOC := by
      rw [List.length_replicate]; norm_num [RAM_SIZE, ROM_LOC]
    rw [if_pos h1, if_pos h2]

/-- Witness for C1 at a concrete 3584-byte ROM. -/
theorem c1_rom_size_check_witness :
    (List.replicate 3584 (0 : Nat)).length ≤ RAM_SIZE - ROM_LOC ∧
    ∃ c, Chip8.new (List.replicate 3584 (0 : Nat)) = some (.ok c) :=
  ⟨by rw [List.length_replicate]; norm_num [RAM_SIZE, ROM_LOC],
   c1_rom_size_check.1 _
     (by rw [List.length_replicate]; norm_num [RAM_SIZE, ROM_LOC])⟩

/-! ## C2 -/

/-- C2: `instruction_cycle` returns `Err(NoMoreInstructions)` exactly
when a byte of the big-endian fetch at `[pc, pc+1]` falls outside the
4096-byte RAM; it is an ordinary result (never a crash), and in that
case no instruction is executed — the state is the input state with
only the timers decremented. -/
theorem c2_no_more_instructions (s : Chip8) (keys : Keys) (tick : Bool) :
    Chip8.instruction_cycle s keys tick =
      .err (Chip8.decrement_timers s tick) .NoMoreInstructions ↔
    (RAM_SIZE ≤ s.pc ∨ RAM_SIZE ≤ s.pc + 1) := by
  have hpc := Chip8.decrement_timers_pc s tick
  unfold Chip8.instruction_cycle Chip8.fetch_instruction
  dsimp only []
  rw [hpc]
  by_cases h1 : s.pc < RAM_SIZE
  · by_cases h2 : s.pc + 1 < RAM_SIZE
    · rw [if_pos h1, if_pos h2]
      constructor
      · intro h
        exact absurd h (Chip8.run_decoded_ne_nmi _ _)
      · intro h
        omega
    · rw [if_pos h1, if_neg h2]
      constructor
      · intro _; right; omega
      · intro _; rfl
  · rw [if_neg h1]
    constructor
    · intro _; left; omega
    · intro _; rfl

/-! ## C3 -/

/-- Pixels strictly left of the start column or strictly above the
start row are never touched by the inner column loop of
`Screen::draw_sprite` (writes go only rightward of `x` on row
`yRow`). -/
lemma Screen.drawCols_outside (row x yRow : Nat) :
    ∀ (fuel j : Nat) (raw : Nat → Bool) (er : Bool) (p : Nat),
      p % WIDTH < x ∨ p / WIDTH < yRow →
      (Screen.drawCols row x yRow fuel j raw er).1 p = raw p := by
  intro fuel
  induction fuel with
  | zero => intro j raw er p hp; rfl
  | succ n ih =>
    intro j raw er p hp
    unfold Screen.drawCols
    by_cases hb : x + j ≥ WIDTH
    · rw [if_pos hb]
    · rw [if_neg hb]
      dsimp only []
      rw [ih _ _ _ _ hp]
      have hne : p ≠ yRow * WIDTH + x + j := by
        simp only [WIDTH] at hb hp ⊢
        omega
      simp [hne]

/-- Pixels strictly left of the start column or strictly above the
start row are never touched by the row loop of
`Screen::draw_sprite`. -/
lemma Screen.drawRows_outside (x y : Nat) :
    ∀ (sprite : List Nat) (i : Nat) (raw : Nat → Bool) (er : Bool) (p : Nat),
      p % WIDTH < x ∨ p / WIDTH < y →
      (Screen.drawRows x y sprite i raw er).1 p = raw p := by
  intro sprite
  induction sprite with
  | nil => intro i raw er p hp; rfl
  | cons row rest ih =>
    intro i raw er p hp
    unfold Screen.drawRows
    by_cases hb : y + i ≥ HEIGHT
    · rw [if_pos hb]
    · rw [if_neg hb]
      dsimp only []
      rw [ih _ _ _ _ hp]
      exact Screen.drawCols_outside row x (y + i) 8 0 raw er p
        (hp.imp id fun h => by omega)

/-- C3: `Screen::draw_sprite` reduces the start coordinates modulo
64/32 and then clips: no pixel left of the reduced start column or
above the reduced start row is ever changed (so nothing wraps to the
far edge); and drawing the 8×1 sprite `[0xFF]` at `(60, 0)` XORs
exactly the cells in columns 60–63 of row 0, leaving every other cell
unchanged. -/
theorem c3_draw_sprite_clips (s : Screen) (sprite : List Nat) (x y p : Nat) :
    (p % WIDTH < x % WIDTH ∨ p / WIDTH < y % HEIGHT →
      (s.draw_sprite sprite x y).1.raw p = s.raw p) ∧
    (p < WIDTH * HEIGHT →
      (s.draw_sprite [0xFF] 60 0).1.raw p =
        if 60 ≤ p ∧ p ≤ 63 then !(s.raw p) else s.raw p) := by
  constructor
  · intro hp
    exact Screen.drawRows_outside (x % WIDTH) (y % HEIGHT) sprite 0 s.raw false p hp
  · intro hp
    show (Screen.drawRows (60 % WIDTH) (0 % HEIGHT) [0xFF] 0 s.raw false).1 p = _
    norm_num [Screen.drawRows, Screen.drawCols, WIDTH, HEIGHT]
    simp only [WIDTH, HEIGHT] at hp
    split_ifs <;> simp_all <;>
      first
        | omega
        | (rw [show ((255:Nat) &&& 16) <<< 3 = 128 from rfl]; simp)
        | (rw [show ((255:Nat) &&& 32) <<< 2 = 128 from rfl]; simp)
        | (rw [show ((255:Nat) &&& 64) <<< 1 = 128 from rfl]; simp)
        | (rw [show (255:Nat) &&& 128 = 128 from rfl]; simp)

/-- Witness for C3: with an empty screen, pixel 0 (far side of the
wrap) is untouched and pixel 61 is flipped. -/
theorem c3_draw_sprite_clips_witness :
    ((0 : Nat) % WIDTH < 60 % WIDTH ∨ (0 : Nat) / WIDTH < 0 % HEIGHT) ∧
    (Screen.new.draw_sprite [0xFF] 60 0).1.raw 0 = Screen.new.raw 0 ∧
    (61 : Nat) < WIDTH * HEIGHT ∧
    (Screen.new.draw_sprite [0xFF] 60 0).1.raw 61 =
      if 60 ≤ 61 ∧ (61 : Nat) ≤ 63 then !(Screen.new.raw 61) else Screen.new.raw 61 := by
  refine ⟨by norm_num [WIDTH, HEIGHT], ?_, by norm_num [WIDTH, HEIGHT], ?_⟩
  · exact (c3_draw_sprite_clips Screen.new [0xFF] 60 0 0).1 (by norm_num [WIDTH, HEIGHT])
  · exact (c3_draw_sprite_clips Screen.new [0xFF] 60 0 61).2 (by norm_num [WIDTH, HEIGHT])

/-! ## C4 and C5 -/

/-- `Instruction::x` is the second nibble of `nibbles`. -/
lemma Instruction.xReg_eq (i : Instruction) : i.xReg = i.nibbles.2.1 := rfl

/-- `Instruction::y` is the third nibble of `nibbles`. -/
lemma Instruction.yReg_eq (i : Instruction) : i.yReg = i.nibbles.2.2.1 := rfl

/-- `Instruction::n` is the fourth nibble of `nibbles`. -/
lemma Instruction.nVal_eq (i : Instruction) : i.nVal = i.nibbles.2.2.2 := rfl

/-- The all-zero machine state used to build concrete test states. -/
def zeroChip : Chip8 :=
  { ram := fun _ => 0, v := fun _ => 0, i := 0, pc := ROM_LOC, dt := 0,
    st := 0, stack := [], instruction := Instruction.new 0, keys := Keys.new,
    screen := Screen.new, rand := 0 }

/-- Concrete state refuting C4 as stated: instruction `8F06`
(`x = 0xF`, `y = 0x0`) with `V0 = 2`, so `Vy >> 1 = 1` but the final
flag write leaves `VF = 0`. -/
def c4state : Chip8 :=
  { zeroChip with instruction := Instruction.new 0x8F06,
                  v := upd zeroChip.v 0x0 2 }

/-- C4 counterexample: executing `8F06` on `c4state` does NOT set
`Vx` (= `VF`, since `x = 0xF`) to `Vy >> 1`: the flag write comes
second and overwrites the shift result. -/
theorem c4_counterexample :
    Chip8.decode_execute c4state = .ok (Chip8.shr_reg c4state) false ∧
    (Chip8.shr_reg c4state).v 0xF ≠ c4state.v 0x0 >>> 1 := by
  constructor
  · rfl
  · decide

/-- C4 (amended): `8xy6` first writes `Vx := Vy >> 1`, then
`VF := old Vx & 1`, and `8xyE` first writes `Vx := (Vy << 1) mod 256`,
then `VF := (old Vx >> 7) & 1`; the shift source is `Vy`.  Since the
flag write comes second, for `x = 0xF` the final `VF` is the flag
bit, not the shift result; for `x ≠ 0xF` both register equations of
the original claim hold. -/
theorem c4_shift_source_is_vy (s : Chip8) (x y : Nat) :
    (s.instruction.nibbles = (0x8, x, y, 0x6) →
      Chip8.decode_execute s = .ok (Chip8.shr_reg s) false ∧
      (Chip8.shr_reg s).v = upd (upd s.v x (s.v y >>> 1)) 0xF (s.v x &&& 1) ∧
      (Chip8.shr_reg s).v 0xF = s.v x &&& 1 ∧
      (x ≠ 0xF → (Chip8.shr_reg s).v x = s.v y >>> 1)) ∧
    (s.instruction.nibbles = (0x8, x, y, 0xE) →
      Chip8.decode_execute s = .ok (Chip8.shl_reg s) false ∧
      (Chip8.shl_reg s).v =
        upd (upd s.v x ((s.v y <<< 1) % 256)) 0xF ((s.v x >>> 7) &&& 1) ∧
      (Chip8.shl_reg s).v 0xF = (s.v x >>> 7) &&& 1 ∧
      (x ≠ 0xF → (Chip8.shl_reg s).v x = (s.v y <<< 1) % 256)) := by
  constructor
  · intro h
    have hx : s.instruction.xReg = x := by rw [Instruction.xReg_eq, h]
    have hy : s.instruction.yReg = y := by rw [Instruction.yReg_eq, h]
    have hop : decodeOp s.instruction.nibbles = .shr_reg := by
      rw [h]; simp [decodeOp]
    refine ⟨?_, ?_, ?_, ?_⟩
    · unfold Chip8.decode_execute
      rw [hop]
    · simp [Chip8.shr_reg, hx, hy]
    · simp [Chip8.shr_reg, hx, hy, upd]
    · intro hxf
      simp [Chip8.shr_reg, hx, hy, upd, hxf]
  · intro h
    have hx : s.instruction.xReg = x := by rw [Instruction.xReg_eq, h]
    have hy : s.instruction.yReg = y := by rw [Instruction.yReg_eq, h]
    have hop : decodeOp s.instruction.nibbles = .shl_reg := by
      rw [h]; simp [decodeOp]
    refine ⟨?_, ?_, ?_, ?_⟩
    · unfold Chip8.decode_execute
      rw [hop]
    · simp [Chip8.shl_reg, hx, hy]
    · simp [Chip8.shl_reg, hx, hy, upd]
    · intro hxf
      simp [Chip8.shl_reg, hx, hy, upd, hxf]

/-- Concrete state for the C4 witness: instruction `8126`
(`x = 1`, `y = 2`) with `V1 = 3` and `V2 = 5`. -/
def c4wit : Chip8 :=
  { zeroChip with instruction := Instruction.new 0x8126,
                  v := upd (upd zeroChip.v 0x1 3) 0x2 5 }

/-- Witness for C4 at `8126`: `V1` receives `V2 >> 1` and `VF` the
old LSB of `V1`. -/
theorem c4_shift_source_is_vy_witness :
    Chip8.decode_execute c4wit = .ok (Chip8.shr_reg c4wit) false ∧
    (Chip8.shr_reg c4wit).v 0xF = c4wit.v 1 &&& 1 ∧
    (Chip8.shr_reg c4wit).v 1 = c4wit.v 2 >>> 1 := by
  have h := (c4_shift_source_is_vy c4wit 1 2).1 rfl
  exact ⟨h.1, h.2.2.1, h.2.2.2 (by decide)⟩

/-- C5: each of `8xy1`/`8xy2`/`8xy3` writes `Vx := Vx OP Vy` and then
resets `VF` to 0; since the flag reset comes second, `VF = 0`
afterwards for every `x` and `y`, including `0xF`. -/
theorem c5_logic_ops_reset_flag (s : Chip8) (x y : Nat) :
    (s.instruction.nibbles = (0x8, x, y, 0x1) →
      Chip8.decode_execute s = .ok (Chip8.or_reg s) false ∧
      (Chip8.or_reg s).v = upd (upd s.v x (s.v x ||| s.v y)) 0xF 0 ∧
      (Chip8.or_reg s).v 0xF = 0) ∧
    (s.instruction.nibbles = (0x8, x, y, 0x2) →
      Chip8.decode_execute s = .ok (Chip8.and_reg s) false ∧
      (Chip8.and_reg s).v = upd (upd s.v x (s.v x &&& s.v y)) 0xF 0 ∧
      (Chip8.and_reg s).v 0xF = 0) ∧
    (s.instruction.nibbles = (0x8, x, y, 0x3) →
      Chip8.decode_execute s = .ok (Chip8.xor_reg s) false ∧
      (Chip8.xor_reg s).v = upd (upd s.v x (s.v x ^^^ s.v y)) 0xF 0 ∧
      (Chip8.xor_reg s).v 0xF = 0) := by
  refine ⟨fun h => ?_, fun h => ?_, fun h => ?_⟩ <;>
    [ (have hop : decodeOp s.instruction.nibbles = .or_reg := by
        rw [h]; simp [decodeOp]);
      (have hop : decodeOp s.instruction.nibbles = .and_reg := by
        rw [h]; simp [decodeOp]);
      (have hop : decodeOp s.instruction.nibbles = .xor_reg := by
        rw [h]; simp [decodeOp])] <;>
    have hx : s.instruction.xReg = x := by rw [Instruction.xReg_eq, h]
  all_goals have hy : s.instruction.yReg = y := by rw [Instruction.yReg_eq, h]
  all_goals refine ⟨?_, ?_, ?_⟩
  all_goals first
    | (unfold Chip8.decode_execute; rw [hop])
    | simp [Chip8.or_reg, Chip8.and_reg, Chip8.xor_reg, hx, hy, upd]

/-- Concrete state for the C5 witness: instruction `8F21`
(`x = 0xF`, `y = 2`, AND) with `V2 = 5` and `VF = 3`. -/
def c5wit : Chip8 :=
  { zeroChip with instruction := Instruction.new 0x8F21,
                  v := upd (upd zeroChip.v 0x2 5) 0xF 3 }

/-- Witness for C5 at `8F21` (`x = 0xF`): after OR, `VF = 0`. -/
theorem c5_logic_ops_reset_flag_witness :
    Chip8.decode_execute c5wit = .ok (Chip8.or_reg c5wit) false ∧
    (Chip8.or_reg c5wit).v = upd (upd c5wit.v 0xF (c5wit.v 0xF ||| c5wit.v 2)) 0xF 0 ∧
    (Chip8.or_reg c5wit).v 0xF = 0 :=
  (c5_logic_ops_reset_flag c5wit 0xF 2).1 rfl

/-! ## C6 -/

/-- The spec's "opcode redrew the screen (clear or sprite-draw)",
phrased through the decoder: the instruction dispatches to
`clear_screen` (pattern `00E0`) or `draw_sprite` (pattern `Dxyn`). -/
def redrawOpcode (ins : Instruction) : Bool :=
  decide (decodeOp ins.nibbles = .clear_screen) ||
  decide (decodeOp ins.nibbles = .draw_sprite)

/-- A successful `decode_execute` reports a redraw exactly for the
clear-screen and sprite-draw arms. -/
lemma Chip8.decode_execute_ok_redraw {s s' : Chip8} {r : Bool}
    (h : Chip8.decode_execute s = .ok s' r) :
    r = redrawOpcode s.instruction := by
  unfold Chip8.decode_execute at h
  unfold redrawOpcode
  cases hop : decodeOp s.instruction.nibbles <;> simp only [hop] at h ⊢ <;>
    first
      | (obtain ⟨-, rfl⟩ := DEOut.ofOp_ok h; simp)
      | simp_all

/-- A successful cycle tail returns the screen snapshot exactly on a
redraw arm and always reports `st > 0` of the post-state. -/
lemma Chip8.run_decoded_ok {s2 s' : Chip8} {scr : Option Screen} {snd : Bool}
    (h : Chip8.run_decoded s2 = .ok s' scr snd) :
    snd = decide (0 < s'.st) ∧
    scr = (if redrawOpcode s2.instruction then some s'.screen else none) := by
  unfold Chip8.run_decoded at h
  cases hde : Chip8.decode_execute s2 with
  | ok s3 r =>
    rw [hde] at h
    have hr := Chip8.decode_execute_ok_redraw hde
    by_cases hb : r = true
    · subst hb
      simp only [if_true] at h
      obtain ⟨rfl, rfl, rfl⟩ := (CycleOut.ok.inj h).imp id (fun q => q.imp id id)
      simp [← hr]
    · have hb' : r = false := by simpa using hb
      subst hb'
      simp only [if_false, Bool.false_eq_true] at h
      obtain ⟨rfl, rfl, rfl⟩ := (CycleOut.ok.inj h).imp id (fun q => q.imp id id)
      simp [← hr]
  | err e => rw [hde] at h; simp at h
  | crash => rw [hde] at h; simp at h

/-- C6: whenever `instruction_cycle` returns `Ok`, the optional screen
is `Some` (a snapshot of the post-state screen) if and only if the
fetched opcode was `00E0` or `Dxyn`, and the boolean is `st > 0` of
the post-execution state. -/
theorem c6_cycle_output (s : Chip8) (keys : Keys) (tick : Bool)
    (ins : Instruction) (s' : Chip8) (scr : Option Screen) (snd : Bool)
    (hf : Chip8.fetch_instruction (Chip8.decrement_timers s tick) = some ins)
    (hc : Chip8.instruction_cycle s keys tick = .ok s' scr snd) :
    snd = decide (0 < s'.st) ∧
    scr = (if redrawOpcode ins then some s'.screen else none) := by
  unfold Chip8.instruction_cycle at hc
  dsimp only [] at hc
  rw [hf] at hc
  have h := Chip8.run_decoded_ok hc
  simpa using h

/-! ## C7 -/

/-- C7: a cycle that fetches `Fx0A` with no last-pressed key in the
supplied snapshot leaves PC unchanged net of the cycle (the `+2` is
rolled back) and modifies no V register, so the same instruction is
fetched again next cycle; with a recorded last-pressed key `k`, `Vx`
is set to `k` and PC keeps its pre-incremented value. -/
theorem c7_wait_key (s : Chip8) (keys : Keys) (tick : Bool)
    (ins : Instruction) (x : Nat) (s' : Chip8) (scr : Option Screen) (snd : Bool)
    (hf : Chip8.fetch_instruction (Chip8.decrement_timers s tick) = some ins)
    (hn : ins.nibbles = (0xF, x, 0x0, 0xA))
    (hc : Chip8.instruction_cycle s keys tick = .ok s' scr snd) :
    (keys.last_pressed = none → s'.pc = s.pc ∧ ∀ r, s'.v r = s.v r) ∧
    (∀ k, keys.last_pressed = some k →
      s'.pc = s.pc + 2 ∧ ∀ r, s'.v r = upd s.v x k r) := by
  have hpc := Chip8.decrement_timers_pc s tick
  have hv := Chip8.decrement_timers_v s tick
  have hop : decodeOp ins.nibbles = .set_reg_key := by rw [hn]; simp [decodeOp]
  have hx : ins.xReg = x := by rw [Instruction.xReg_eq, hn]
  unfold Chip8.instruction_cycle at hc
  dsimp only [] at hc
  rw [hf] at hc
  unfold Chip8.run_decoded Chip8.decode_execute at hc
  dsimp only [] at hc
  rw [hop] at hc
  unfold Chip8.set_reg_key at hc
  dsimp only [] at hc
  cases hk : keys.last_pressed with
  | none =>
    rw [hk] at hc
    rw [if_neg (by omega)] at hc
    dsimp only [DEOut.ofOp] at hc
    obtain ⟨h1, -, -⟩ := CycleOut.ok.inj hc
    subst h1
    refine ⟨fun _ => ⟨?_, fun r => ?_⟩, fun k hk' => ?_⟩
    · dsimp only []
      omega
    · dsimp only []
      rw [hv]
    · cases hk'
  | some k0 =>
    rw [hk] at hc
    dsimp only [DEOut.ofOp] at hc
    obtain ⟨h1, -, -⟩ := CycleOut.ok.inj hc
    subst h1
    refine ⟨fun h0 => ?_, fun k hk' => ?_⟩
    · cases h0
    · have hkk : k0 = k := Option.some.inj hk'
      subst hkk
      refine ⟨?_, fun r => ?_⟩
      · dsimp only []
        omega
      · dsimp only []
        rw [hx, hv]

/-- Concrete pre-state for the C6 witness: the clear-screen opcode
`00E0` stored at the reset PC. -/
def c6pre : Chip8 :=
  { zeroChip with ram := upd (upd zeroChip.ram 0x200 0x00) 0x201 0xE0 }

/-- The post-state of one cycle on `c6pre`. -/
def c6post : Chip8 :=
  Chip8.clear_screen
    { c6pre with keys := Keys.new, instruction := Instruction.new 0xE0,
                 pc := c6pre.pc + 2 }

/-- Witness for C6: the `00E0` cycle on `c6pre` returns the screen
snapshot with the no-sound flag. -/
theorem c6_cycle_output_witness :
    (false : Bool) = decide (0 < c6post.st) ∧
    (some c6post.screen : Option Screen) =
      (if redrawOpcode (Instruction.new 0xE0) then some c6post.screen
       else none) :=
  c6_cycle_output c6pre Keys.new false (Instruction.new 0xE0) c6post
    (some c6post.screen) false rfl rfl

/-- Concrete pre-state for the C7 witness: `F30A` stored at the reset
PC, no key recorded. -/
def c7pre : Chip8 :=
  { zeroChip with ram := upd (upd zeroChip.ram 0x200 0xF3) 0x201 0x0A }

/-- The post-state of one cycle on `c7pre` with no key pressed: PC
rolled back to its pre-cycle value. -/
def c7post : Chip8 :=
  { c7pre with keys := Keys.new, instruction := Instruction.new 0xF30A,
               pc := c7pre.pc + 2 - 2 }

/-- Witness for C7: the keyless `F30A` cycle on `c7pre` leaves PC and
all registers unchanged. -/
theorem c7_wait_key_witness :
    c7post.pc = c7pre.pc ∧ ∀ r, c7post.v r = c7pre.v r :=
  (c7_wait_key c7pre Keys.new false (Instruction.new 0xF30A) 3 c7post
    none false rfl rfl rfl).1 rfl

/-! ## C8 -/

/-- C8: executing `Fx55` (store `V0..=Vx` at `RAM[I..I+x+1]`,
`I += x+1`) and then `Fx65` (load back) with `I` reset to the same
starting value between the two restores `V0..=Vx`, provided
`I + x + 1 <= 4096`. -/
theorem c8_store_load_roundtrip (s : Chip8) (x : Nat) (s1 s2 : Chip8)
    (hx : s.instruction.xReg = x)
    (hb : s.i + x + 1 ≤ RAM_SIZE)
    (h1 : Chip8.set_index_reg s = some s1)
    (h2 : Chip8.set_reg_index { s1 with i := s.i } = some s2) :
    ∀ j, j ≤ x → s2.v j = s.v j := by
  unfold Chip8.set_index_reg at h1
  dsimp only [] at h1
  rw [hx] at h1
  rw [if_pos (by omega)] at h1
  obtain rfl := Option.some.inj h1
  unfold Chip8.set_reg_index at h2
  dsimp only [] at h2
  rw [hx] at h2
  rw [if_pos (by omega)] at h2
  obtain rfl := Option.some.inj h2
  intro j hj
  dsimp only []
  rw [if_pos hj]
  rw [if_pos (by omega)]
  congr 1
  omega

/-- Concrete state for the C8 witness: `F355` (`x = 3`), `I = 100`,
`V0 = 7`, `V2 = 9`. -/
def c8s : Chip8 :=
  { zeroChip with instruction := Instruction.new 0xF355, i := 100,
                  v := upd (upd zeroChip.v 0 7) 2 9 }

/-- The state after `F355` on `c8s`. -/
def c8s1 : Chip8 :=
  { c8s with
      ram := fun a => if c8s.i ≤ a ∧ a ≤ c8s.i + 3 then c8s.v (a - c8s.i)
             else c8s.ram a,
      i := c8s.i + 3 + 1 }

/-- `c8s1` with `I` reset to the pre-store value. -/
def c8mid : Chip8 := { c8s1 with i := c8s.i }

/-- The state after `F365` on `c8mid`. -/
def c8s3 : Chip8 :=
  { c8mid with
      v := fun r => if r ≤ 3 then c8mid.ram (c8mid.i + r) else c8mid.v r,
      i := c8mid.i + 3 + 1 }

/-- Witness for C8 at `x = 3`, `j = 2`. -/
theorem c8_store_load_roundtrip_witness : c8s3.v 2 = c8s.v 2 :=
  c8_store_load_roundtrip c8s 3 c8s1 c8s3 rfl (by decide) rfl rfl 2
    (by decide)

/-! ## C9 -/

/-- C9: the RAM-block opcodes index RAM unchecked through `I`: each
succeeds exactly under its bound (`I + n <= 4096` for `Dxyn`,
`I + 3 <= 4096` for `Fx33`, `I + x + 1 <= 4096` for `Fx55`/`Fx65`) and
panics (`crash`) exactly when the bound fails — never a returned
`Chip8Error`. -/
theorem c9_ram_block_bounds (s : Chip8) (x y n : Nat) :
    (s.instruction.nibbles = (0xD, x, y, n) →
      (Chip8.decode_execute s = .crash ↔ RAM_SIZE < s.i + n) ∧
      ∀ e, Chip8.decode_execute s ≠ .err e) ∧
    (s.instruction.nibbles = (0xF, x, 0x3, 0x3) →
      (Chip8.decode_execute s = .crash ↔ RAM_SIZE < s.i + 3) ∧
      ∀ e, Chip8.decode_execute s ≠ .err e) ∧
    (s.instruction.nibbles = (0xF, x, 0x5, 0x5) →
      (Chip8.decode_execute s = .crash ↔ RAM_SIZE < s.i + x + 1) ∧
      ∀ e, Chip8.decode_execute s ≠ .err e) ∧
    (s.instruction.nibbles = (0xF, x, 0x6, 0x5) →
      (Chip8.decode_execute s = .crash ↔ RAM_SIZE < s.i + x + 1) ∧
      ∀ e, Chip8.decode_execute s ≠ .err e) := by
  refine ⟨fun h => ?_, fun h => ?_, fun h => ?_, fun h => ?_⟩
  · have hop : decodeOp s.instruction.nibbles = .draw_sprite := by
      rw [h]; simp [decodeOp]
    have hde : Chip8.decode_execute s = DEOut.ofOp (Chip8.draw_sprite s) true := by
      unfold Chip8.decode_execute; rw [hop]
    have hnv : s.instruction.nVal = n := by rw [Instruction.nVal_eq, h]
    refine ⟨?_, fun e => ?_⟩
    · rw [hde, DEOut.ofOp_crash]
      unfold Chip8.draw_sprite
      dsimp only []
      rw [hnv]
      by_cases hbb : s.i + n ≤ RAM_SIZE
      · rw [if_pos hbb]
        exact ⟨fun hcon => (by cases hcon), fun hlt => absurd hlt (by omega)⟩
      · rw [if_neg hbb]
        exact ⟨fun _ => (by omega), fun _ => rfl⟩
    · rw [hde]; exact DEOut.ofOp_ne_err _ _ _
  · have hop : decodeOp s.instruction.nibbles = .set_index_bcd := by
      rw [h]; simp [decodeOp]
    have hde : Chip8.decode_execute s = DEOut.ofOp (Chip8.set_index_bcd s) false := by
      unfold Chip8.decode_execute; rw [hop]
    refine ⟨?_, fun e => ?_⟩
    · rw [hde, DEOut.ofOp_crash]
      unfold Chip8.set_index_bcd
      by_cases hbb : s.i + 2 < RAM_SIZE
      · rw [if_pos hbb]
        exact ⟨fun hcon => (by cases hcon), fun hlt => absurd hlt (by omega)⟩
      · rw [if_neg hbb]
        exact ⟨fun _ => (by omega), fun _ => rfl⟩
    · rw [hde]; exact DEOut.ofOp_ne_err _ _ _
  · have hop : decodeOp s.instruction.nibbles = .set_index_reg := by
      rw [h]; simp [decodeOp]
    have hde : Chip8.decode_execute s = DEOut.ofOp (Chip8.set_index_reg s) false := by
      unfold Chip8.decode_execute; rw [hop]
    have hxv : s.instruction.xReg = x := by rw [Instruction.xReg_eq, h]
    refine ⟨?_, fun e => ?_⟩
    · rw [hde, DEOut.ofOp_crash]
      unfold Chip8.set_index_reg
      dsimp only []
      rw [hxv]
      by_cases hbb : s.i + x < RAM_SIZE
      · rw [if_pos hbb]
        exact ⟨fun hcon => (by cases hcon), fun hlt => absurd hlt (by omega)⟩
      · rw [if_neg hbb]
        exact ⟨fun _ => (by omega), fun _ => rfl⟩
    · rw [hde]; exact DEOut.ofOp_ne_err _ _ _
  · have hop : decodeOp s.instruction.nibbles = .set_reg_index := by
      rw [h]; simp [decodeOp]
    have hde : Chip8.decode_execute s = DEOut.ofOp (Chip8.set_reg_index s) false := by
      unfold Chip8.decode_execute; rw [hop]
    have hxv : s.instruction.xReg = x := by rw [Instruction.xReg_eq, h]
    refine ⟨?_, fun e => ?_⟩
    · rw [hde, DEOut.ofOp_crash]
      unfold Chip8.set_reg_index
      dsimp only []
      rw [hxv]
      by_cases hbb : s.i + x < RAM_SIZE
      · rw [if_pos hbb]
        exact ⟨fun hcon => (by cases hcon), fun hlt => absurd hlt (by omega)⟩
      · rw [if_neg hbb]
        exact ⟨fun _ => (by omega), fun _ => rfl⟩
    · rw [hde]; exact DEOut.ofOp_ne_err _ _ _

/-- Concrete state for the C9 witness: `D005` (a 5-row sprite) with
`I = 4092`, so `I + n = 4097 > 4096`. -/
def c9state : Chip8 :=
  { zeroChip with instruction := Instruction.new 0xD005, i := 4092 }

/-- Witness for C9: on `c9state` the draw opcode panics, and does not
return an error. -/
theorem c9_ram_block_bounds_witness :
    (Chip8.decode_execute c9state = .crash ↔ RAM_SIZE < c9state.i + 5) ∧
    ∀ e, Chip8.decode_execute c9state ≠ .err e :=
  (c9_ram_block_bounds c9state 0 0 5).1 rfl

/-! ## C10 -/

/-- C10: `Keys::key_pressed(k)` is a well-defined bit test only for
`k < 16` (it computes `1u16 << k`): for `k < 16` it reports bit `k` of
the mask; for `k >= 16` the shift overflows the 16-bit width (a panic
in debug builds, modelled as `none`), and the key-skip opcodes
`Ex9E`/`ExA1` executed with `Vx >= 16` propagate that panic instead of
treating the key as unpressed or returning an error. -/
theorem c10_key_pressed_domain (k : Keys) (key : Nat) (s : Chip8) (x : Nat) :
    (key < 16 → k.key_pressed key = some (k.raw.testBit key)) ∧
    (16 ≤ key → k.key_pressed key = none) ∧
    (s.instruction.nibbles = (0xE, x, 0x9, 0xE) → 16 ≤ s.v x →
      Chip8.decode_execute s = .crash) ∧
    (s.instruction.nibbles = (0xE, x, 0xA, 0x1) → 16 ≤ s.v x →
      Chip8.decode_execute s = .crash) := by
  refine ⟨fun hlt => ?_, fun hge => ?_, fun h hv => ?_, fun h hv => ?_⟩
  · unfold Keys.key_pressed
    rw [if_pos hlt]
    congr 1
    rw [Nat.shiftLeft_eq, one_mul, Nat.and_two_pow]
    cases hb : k.raw.testBit key <;> simp
  · unfold Keys.key_pressed
    rw [if_neg (by omega)]
  · have hop : decodeOp s.instruction.nibbles = .skip_eq_key := by
      rw [h]; simp [decodeOp]
    have hxv : s.instruction.xReg = x := by rw [Instruction.xReg_eq, h]
    have hde : Chip8.decode_execute s = DEOut.ofOp (Chip8.skip_eq_key s) false := by
      unfold Chip8.decode_execute; rw [hop]
    rw [hde, DEOut.ofOp_crash]
    unfold Chip8.skip_eq_key
    rw [hxv]
    have hkp : s.keys.key_pressed (s.v x) = none := by
      unfold Keys.key_pressed
      rw [if_neg (by omega)]
    rw [hkp]
  · have hop : decodeOp s.instruction.nibbles = .skip_not_key := by
      rw [h]; simp [decodeOp]
    have hxv : s.instruction.xReg = x := by rw [Instruction.xReg_eq, h]
    have hde : Chip8.decode_execute s = DEOut.ofOp (Chip8.skip_not_key s) false := by
      unfold Chip8.decode_execute; rw [hop]
    rw [hde, DEOut.ofOp_crash]
    unfold Chip8.skip_not_key
    rw [hxv]
    have hkp : s.keys.key_pressed (s.v x) = none := by
      unfold Keys.key_pressed
      rw [if_neg (by omega)]
    rw [hkp]

/-- Concrete keys for the C10 witness: only key 3 held down. -/
def c10keys : Keys := ⟨8, none⟩

/-- Concrete state for the C10 witness: `E09E` with `V0 = 16`. -/
def c10state : Chip8 :=
  { zeroChip with instruction := Instruction.new 0xE09E,
                  v := upd zeroChip.v 0 16 }

/-- Witness for C10: bit test at key 3, overflow at key 20, and the
`Ex9E` panic at `V0 = 16`. -/
theorem c10_key_pressed_domain_witness :
    c10keys.key_pressed 3 = some (c10keys.raw.testBit 3) ∧
    c10keys.key_pressed 20 = none ∧
    Chip8.decode_execute c10state = .crash :=
  ⟨(c10_key_pressed_domain c10keys 3 c10state 0).1 (by decide),
   (c10_key_pressed_domain c10keys 20 c10state 0).2.1 (by decide),
   (c10_key_pressed_domain c10keys 16 c10state 0).2.2.1 rfl (by decide)⟩

end Biscuit8
